import Mathlib

/-!
Verification of the `RankerModelLoaderImpl` component
(components/assist_ranker/ranker_model_loader_impl.h).

The repository excerpt contains only the class declaration
(`ranker_model_loader_impl.h`); the member-function bodies
(`ranker_model_loader_impl.cc`) are not part of the excerpt.  The enum of
states, the member fields and their constness, and the handler signatures are
taken from the header; the transition behaviour of the handlers is modelled
from the specification's state-transition table and backoff policy.

The embedding is a pure state machine: the loader object is a record holding
both the construction-time (const) fields of the C++ class and its mutable
fields, extended with observation logs (completion-sink invocations and
counters of disk reads, disk writes and network fetches) that record the
externally visible side effects.  Background completion events (file load
finished, URL fetch finished) and client activity signals are delivered as an
event trace folded over the step function.
-/

namespace AssistRanker

/-- The loader state enum, copied from `LoaderState` in
`ranker_model_loader_impl.h` (lines 73-94). -/
inductive LoaderState
  | NOT_STARTED
  | LOADING_FROM_FILE
  | IDLE
  | LOADING_FROM_URL
  | FINISHED
deriving DecidableEq, Repr

/-- One invocation of the completion sink (`on_model_available_cb_`): either a
validated model is transferred, or a failure status is reported. -/
inductive SinkResult
  | success (model : String)
  | failure
deriving DecidableEq, Repr

/-- The loader object.  The first block of fields mirrors the const members of
`RankerModelLoaderImpl` (header lines 126-148): `validate_model_cb_`,
`on_model_available_cb_`, `background_task_runner_`, `model_path_`,
`model_url_`, `uma_prefix_`; the stored callbacks and the task runner are
represented by the validation function actually used and by opaque handles
(their invocations are recorded in the observation logs).  `model_path_` is a
path string (empty means no cache location); `model_url_valid` abstracts
`model_url_.is_valid()`.  `attemptCap` and `delay` are the backoff policy
parameters, which the spec leaves configurable.

The second block mirrors the mutable members: `url_loader_factory_`,
`url_fetcher_` (abstracted to whether a fetcher has been created),
`next_earliest_download_time_`, `load_start_time_`, `state_`, and the download
attempt counter kept by the retry machinery.

The third block is observation logs: `sinkEvents` records every invocation of
the completion sink in order; `cacheReads`, `netFetches` and `cacheWrites`
count the background disk reads, network fetches and disk writes started. -/
structure Loader where
  validate_model_cb : String → Bool
  on_model_available_cb : String
  background_task_runner : String
  model_path : String
  model_url_valid : Bool
  uma_metric_label : String
  attemptCap : Nat
  delay : Nat → Nat
  url_loader_factory : String
  url_fetcher : Bool
  next_earliest_download_time : Nat
  load_start_time : Nat
  state : LoaderState
  attempts : Nat
  sinkEvents : List SinkResult
  cacheReads : Nat
  netFetches : Nat
  cacheWrites : Nat

/-- Parse `data` and return a validated model, `none` on rejection
(`CreateAndValidateModel`, header lines 114-116; the model payload itself is
opaque to the loader, so the validated bytes stand for the model). -/
def CreateAndValidateModel (l : Loader) (data : String) : Option String :=
  if l.validate_model_cb data then some data else none

/-- Transition to the terminal state and invoke the completion sink once with
`r`.  Modelled from the spec: reaching `Finished` reports the final outcome
through `on_model_available_cb_`. -/
def finishReport (l : Loader) (r : SinkResult) : Loader :=
  { l with state := LoaderState.FINISHED, sinkEvents := l.sinkEvents ++ [r] }

/-- `StartLoadFromFile` (header line 97).  Modelled from the spec: dispatch a
background read of `model_path_` and enter `LOADING_FROM_FILE`. -/
def StartLoadFromFile (l : Loader) (now : Nat) : Loader :=
  { l with state := LoaderState.LOADING_FROM_FILE,
           load_start_time := now,
           cacheReads := l.cacheReads + 1 }

/-- `StartLoadFromURL` (header line 104).  Modelled from the spec: create a
fetcher, dispatch a background download of `model_url_` and enter
`LOADING_FROM_URL`. -/
def StartLoadFromURL (l : Loader) (now : Nat) : Loader :=
  { l with state := LoaderState.LOADING_FROM_URL,
           load_start_time := now,
           url_fetcher := true,
           netFetches := l.netFetches + 1 }

/-- Best-effort persistence of freshly downloaded bytes to `model_path_`
(constructor doc, header lines 45-47).  Modelled from the spec: attempted only
when a cache location is configured; the write outcome is ignored. -/
def persistToCache (l : Loader) : Loader :=
  if l.model_path ≠ "" then { l with cacheWrites := l.cacheWrites + 1 } else l

/-- The constructor's parameter list (header lines 54-60), together with the
backoff policy parameters (attempt cap and delay curve), which the spec leaves
configurable. -/
structure CtorArgs where
  validate_model_cb : String → Bool
  on_model_available_cb : String
  url_loader_factory : String
  background_task_runner : String
  model_path : String
  model_url_valid : Bool
  uma_metric_label : String
  attemptCap : Nat
  delay : Nat → Nat

/-- The loader's fields as constructed, before the constructor dispatches the
first load: state is `NOT_STARTED` (header line 162), the backoff clock and
counters are zero, no sink invocation has happened. -/
def initLoader (a : CtorArgs) : Loader :=
  { validate_model_cb := a.validate_model_cb,
    on_model_available_cb := a.on_model_available_cb,
    background_task_runner := a.background_task_runner,
    model_path := a.model_path,
    model_url_valid := a.model_url_valid,
    uma_metric_label := a.uma_metric_label,
    attemptCap := a.attemptCap,
    delay := a.delay,
    url_loader_factory := a.url_loader_factory,
    url_fetcher := false,
    next_earliest_download_time := 0,
    load_start_time := 0,
    state := LoaderState.NOT_STARTED,
    attempts := 0,
    sinkEvents := [],
    cacheReads := 0,
    netFetches := 0,
    cacheWrites := 0 }

/-- Modelled from the spec: the load dispatch performed at the end of the
constructor.  Begin a cache load if a cache location was given, else a network
load if a URL was given, else transition directly to `FINISHED` and report
"model unavailable" without touching disk or network. -/
def startLoading (l : Loader) (now : Nat) : Loader :=
  if l.model_path ≠ "" then StartLoadFromFile l now
  else if l.model_url_valid then StartLoadFromURL l now
  else finishReport l SinkResult.failure

/-- Modelled from the spec: the constructor body of `RankerModelLoaderImpl`
(the `.cc` file is absent from the excerpt).  The fields are initialised with
state `NOT_STARTED` and the first load is dispatched immediately. -/
def construct (a : CtorArgs) (now : Nat) : Loader :=
  startLoading (initLoader a) now

/-- Modelled from the spec: `OnFileLoaded` (header lines 99-101; body absent).
Empty `data` means the read of `model_path_` failed.  A successful, validated,
unexpired payload finishes with success; a cache miss or rejected payload falls
through to `IDLE` and moves straight to the network path when a URL is
configured (no backoff applies to this first attempt), else finishes with
failure.  Delivered only while `LOADING_FROM_FILE`. -/
def OnFileLoaded (l : Loader) (now : Nat) (data : String) : Loader :=
  if l.state ≠ LoaderState.LOADING_FROM_FILE then l
  else
    match (if data = "" then none else CreateAndValidateModel l data) with
    | some m => finishReport l (SinkResult.success m)
    | none =>
        let li := { l with state := LoaderState.IDLE }
        if li.model_url_valid then StartLoadFromURL li now
        else finishReport li SinkResult.failure

/-- Modelled from the spec: `OnURLFetched` (header lines 106-112; body absent).
A successful download whose payload validates is persisted to the cache (best
effort) and finishes with success.  A fetch failure or validation rejection
consumes one attempt: when the hard attempt cap is reached the loader finishes
with a terminal failure, otherwise it returns to `IDLE` and advances the
backoff clock to `now + delay(attemptNumber)`.  Delivered only while
`LOADING_FROM_URL`. -/
def OnURLFetched (l : Loader) (now : Nat) (success : Bool) (data : String) :
    Loader :=
  if l.state ≠ LoaderState.LOADING_FROM_URL then l
  else
    match (if success then CreateAndValidateModel l data else none) with
    | some m => finishReport (persistToCache l) (SinkResult.success m)
    | none =>
        let a := l.attempts + 1
        if l.attemptCap ≤ a then
          finishReport { l with attempts := a } SinkResult.failure
        else
          { l with attempts := a,
                   state := LoaderState.IDLE,
                   next_earliest_download_time := now + l.delay a }

/-- Modelled from the spec: `NotifyOfRankerActivity` (header lines 64-69; body
absent).  In `IDLE`, if a source URL is configured, the current time is at or
after `next_earliest_download_time_`, and the attempt cap has not been
reached, begin a network load; in every other case the call is a no-op. -/
def NotifyOfRankerActivity (l : Loader) (now : Nat) : Loader :=
  if l.state = LoaderState.IDLE then
    if l.model_url_valid ∧ l.next_earliest_download_time ≤ now ∧
        l.attempts < l.attemptCap then
      StartLoadFromURL l now
    else l
  else l

/-- An event delivered to the loader on its owner sequence: a client activity
signal, or the completion of a background cache read or network fetch. -/
inductive Event
  | notify (now : Nat)
  | fileLoaded (now : Nat) (data : String)
  | urlFetched (now : Nat) (success : Bool) (data : String)

/-- Dispatch one event to the corresponding handler. -/
def step (l : Loader) : Event → Loader
  | Event.notify now => NotifyOfRankerActivity l now
  | Event.fileLoaded now data => OnFileLoaded l now data
  | Event.urlFetched now success data => OnURLFetched l now success data

/-- Deliver a sequence of events in order. -/
def run (l : Loader) (evs : List Event) : Loader := evs.foldl step l

/-- An event at the system level: either an ordinary event handed off to the
loader, or the loader's destruction. -/
inductive SysEvent
  | deliver (e : Event)
  | destroy

/-- The loader together with its liveness: `alive` is false once the loader
has been destroyed. -/
structure Sys where
  loader : Loader
  alive : Bool

/-- Modelled from the spec: the weak-pointer handoff (`weak_ptr_factory_`,
header lines 164-165).  Results of background work are bound to a weak
reference; destruction invalidates it, so an event delivered after
destruction is dropped silently and has no observable effect. -/
def sysStep (s : Sys) : SysEvent → Sys
  | SysEvent.destroy => { s with alive := false }
  | SysEvent.deliver e => if s.alive then { s with loader := step s.loader e } else s

/-- Deliver a sequence of system events in order. -/
def sysRun (s : Sys) (evs : List SysEvent) : Sys := evs.foldl sysStep s

/-! ### Basic lemmas about the step function -/

/-- `FINISHED` is terminal: no event changes a finished loader. -/
theorem step_finished {l : Loader} (h : l.state = LoaderState.FINISHED)
    (e : Event) : step l e = l := by
  cases e <;>
    simp [step, NotifyOfRankerActivity, OnFileLoaded, OnURLFetched, h]

/-- `FINISHED` is terminal under whole traces. -/
theorem run_finished {l : Loader} (h : l.state = LoaderState.FINISHED)
    (evs : List Event) : run l evs = l := by
  induction evs with
  | nil => rfl
  | cons e evs ih =>
      show run (step l e) evs = l
      rw [step_finished h e, ih]

/-- No handler starts a cache read: `StartLoadFromFile` is reached only from
the constructor, so `cacheReads` is frozen after construction. -/
theorem step_cacheReads (l : Loader) (e : Event) :
    (step l e).cacheReads = l.cacheReads := by
  cases e with
  | notify now =>
      simp only [step, NotifyOfRankerActivity]
      split
      · split
        · rfl
        · rfl
      · rfl
  | fileLoaded now data =>
      simp only [step, OnFileLoaded]
      split
      · rfl
      · split
        · rfl
        · split
          · rfl
          · rfl
  | urlFetched now success data =>
      simp only [step, OnURLFetched]
      split
      · rfl
      · split
        · simp [finishReport, persistToCache]
          split <;> rfl
        · split
          · rfl
          · rfl

/-- `cacheReads` is invariant along any trace. -/
theorem run_cacheReads (l : Loader) (evs : List Event) :
    (run l evs).cacheReads = l.cacheReads := by
  induction evs generalizing l with
  | nil => rfl
  | cons e evs ih =>
      show (run (step l e) evs).cacheReads = l.cacheReads
      rw [ih, step_cacheReads]

/-- The single-shot sink invariant: the completion sink has fired at most
once, and it has fired exactly when the loader has reached `FINISHED`. -/
def Inv (l : Loader) : Prop :=
  l.sinkEvents.length ≤ 1 ∧ (l.state = LoaderState.FINISHED ↔ l.sinkEvents ≠ [])

/-- Before the loader reaches `FINISHED` the sink has not fired. -/
theorem sink_empty_of_not_finished {l : Loader} (h : Inv l)
    (hne : l.state ≠ LoaderState.FINISHED) : l.sinkEvents = [] := by
  by_contra hc
  exact hne (h.2.mpr hc)

theorem inv_construct (a : CtorArgs) (now : Nat) :
    Inv (construct a now) := by
  unfold construct startLoading
  split
  · simp [Inv, StartLoadFromFile, initLoader]
  · split
    · simp [Inv, StartLoadFromURL, initLoader]
    · simp [Inv, finishReport, initLoader]

theorem inv_step {l : Loader} (h : Inv l) (e : Event) : Inv (step l e) := by
  obtain ⟨hlen, hiff⟩ := h
  cases e with
  | notify now =>
      simp only [step, NotifyOfRankerActivity]
      split
      · rename_i hidle
        have hsink : l.sinkEvents = [] :=
          sink_empty_of_not_finished ⟨hlen, hiff⟩ (by rw [hidle]; decide)
        split
        · exact ⟨by simp [StartLoadFromURL, hsink],
            by simp [StartLoadFromURL, hsink]⟩
        · exact ⟨hlen, hiff⟩
      · exact ⟨hlen, hiff⟩
  | fileLoaded now data =>
      simp only [step, OnFileLoaded]
      split
      · exact ⟨hlen, hiff⟩
      · rename_i hfile
        have hst : l.state = LoaderState.LOADING_FROM_FILE := by
          by_contra hc
          exact hfile hc
        have hsink : l.sinkEvents = [] :=
          sink_empty_of_not_finished ⟨hlen, hiff⟩ (by rw [hst]; decide)
        split
        · exact ⟨by simp [finishReport, hsink], by simp [finishReport]⟩
        · split
          · exact ⟨by simp [StartLoadFromURL, hsink],
              by simp [StartLoadFromURL, hsink]⟩
          · exact ⟨by simp [finishReport, hsink], by simp [finishReport]⟩
  | urlFetched now success data =>
      simp only [step, OnURLFetched]
      split
      · exact ⟨hlen, hiff⟩
      · rename_i hurl
        have hst : l.state = LoaderState.LOADING_FROM_URL := by
          by_contra hc
          exact hurl hc
        have hsink : l.sinkEvents = [] :=
          sink_empty_of_not_finished ⟨hlen, hiff⟩ (by rw [hst]; decide)
        split
        · refine ⟨?_, ?_⟩
          · simp only [finishReport, persistToCache]
            split <;> simp [hsink]
          · simp only [finishReport, persistToCache]
            split <;> simp
        · split
          · exact ⟨by simp [finishReport, hsink], by simp [finishReport]⟩
          · exact ⟨by simpa using hlen, by simp [hsink]⟩

theorem inv_run {l : Loader} (h : Inv l) (evs : List Event) :
    Inv (run l evs) := by
  induction evs generalizing l with
  | nil => exact h
  | cons e evs ih => exact ih (inv_step h e)

/-- An activity signal arriving strictly before the backoff deadline is a
no-op, whatever the state. -/
theorem notify_noop_before {l : Loader} {t : Nat}
    (h : t < l.next_earliest_download_time) :
    NotifyOfRankerActivity l t = l := by
  unfold NotifyOfRankerActivity
  split
  · split
    · rename_i hg
      exact absurd hg.2.1 (by omega)
    · rfl
  · rfl

/-- Any number of activity signals arriving strictly before the backoff
deadline leave the loader unchanged. -/
theorem run_notify_before {l : Loader} {ts : List Nat}
    (h : ∀ t ∈ ts, t < l.next_earliest_download_time) :
    run l (ts.map Event.notify) = l := by
  induction ts with
  | nil => rfl
  | cons t ts ih =>
      have ht : t < l.next_earliest_download_time := h t (by simp)
      have hrest : ∀ u ∈ ts, u < l.next_earliest_download_time := fun u hu =>
        h u (by simp [hu])
      show run (NotifyOfRankerActivity l t) (ts.map Event.notify) = l
      rw [notify_noop_before ht]
      exact ih hrest

theorem run_append (l : Loader) (p q : List Event) :
    run l (p ++ q) = run (run l p) q :=
  List.foldl_append _ _ _ _

/-! ### System-level lemmas (destruction) -/

theorem sysRun_append (s : Sys) (p q : List SysEvent) :
    sysRun s (p ++ q) = sysRun (sysRun s p) q :=
  List.foldl_append _ _ _ _

/-- A dead system absorbs every event. -/
theorem sysStep_dead {s : Sys} (h : s.alive = false) (e : SysEvent) :
    sysStep s e = s := by
  cases e with
  | destroy =>
      show { s with alive := false } = s
      cases s
      simp_all
  | deliver e => simp [sysStep, h]

/-- A dead system absorbs every trace. -/
theorem sysRun_dead {s : Sys} (h : s.alive = false) (evs : List SysEvent) :
    sysRun s evs = s := by
  induction evs with
  | nil => rfl
  | cons e evs ih =>
      show sysRun (sysStep s e) evs = s
      rw [sysStep_dead h e, ih]

/-- After a trace ending in destruction, the system is dead. -/
theorem sysRun_destroy_dead (s : Sys) (p : List SysEvent) :
    (sysRun s (p ++ [SysEvent.destroy])).alive = false := by
  rw [sysRun_append]
  rfl

/-- The single-shot sink invariant is preserved at the system level. -/
theorem sys_inv {s : Sys} (h : Inv s.loader) (evs : List SysEvent) :
    Inv (sysRun s evs).loader := by
  induction evs generalizing s with
  | nil => exact h
  | cons e evs ih =>
      refine ih ?_
      cases e with
      | destroy => exact h
      | deliver e =>
          show Inv (if s.alive then { s with loader := step s.loader e } else s).loader
          split
          · exact inv_step h e
          · exact h

/-! ### Frame lemmas: the const members never change -/

/-- The tuple of fields mirroring the const members of the C++ class
(header lines 126-148). -/
def config (l : Loader) :
    (String → Bool) × String × String × String × Bool × String :=
  (l.validate_model_cb, l.on_model_available_cb, l.background_task_runner,
   l.model_path, l.model_url_valid, l.uma_metric_label)

theorem step_config (l : Loader) (e : Event) : config (step l e) = config l := by
  cases e with
  | notify now =>
      simp only [step, NotifyOfRankerActivity]
      split
      · split
        · simp [config, StartLoadFromURL]
        · rfl
      · rfl
  | fileLoaded now data =>
      simp only [step, OnFileLoaded]
      split
      · rfl
      · split
        · simp [config, finishReport]
        · split
          · simp [config, StartLoadFromURL]
          · simp [config, finishReport]
  | urlFetched now success data =>
      simp only [step, OnURLFetched]
      split
      · rfl
      · split
        · simp only [config, finishReport, persistToCache]
          split <;> simp
        · split
          · simp [config, finishReport]
          · simp [config]

theorem run_config (l : Loader) (evs : List Event) :
    config (run l evs) = config l := by
  induction evs generalizing l with
  | nil => rfl
  | cons e evs ih =>
      show config (run (step l e) evs) = config l
      rw [ih, step_config]

/-! ### The claims -/

/-- C1: For every loader instance, the completion sink is invoked at most once
over the whole lifetime, and only after the loader state has reached
`FINISHED`; `FINISHED` is terminal, so no operation performed after reaching
it changes the state or invokes the sink again. -/
theorem C1_sink_once_and_finished_terminal (a : CtorArgs) (t0 : Nat)
    (evs : List Event) :
    (run (construct a t0) evs).sinkEvents.length ≤ 1 ∧
    ((run (construct a t0) evs).sinkEvents ≠ [] →
      (run (construct a t0) evs).state = LoaderState.FINISHED) ∧
    (∀ e, (run (construct a t0) evs).state = LoaderState.FINISHED →
      step (run (construct a t0) evs) e = run (construct a t0) evs) := by
  have h := inv_run (inv_construct a t0) evs
  exact ⟨h.1, fun hne => h.2.mpr hne, fun e hf => step_finished hf e⟩

/-- C2: With both the cache location and the source URL absent/invalid, the
loader transitions directly from `NOT_STARTED` to `FINISHED`, the completion
sink fires exactly once with a failure status, and no disk read, disk write,
or network fetch is ever attempted over the whole lifetime. -/
theorem C2_no_sources_finishes_immediately (a : CtorArgs) (t0 : Nat)
    (hp : a.model_path = "") (hu : a.model_url_valid = false) :
    (initLoader a).state = LoaderState.NOT_STARTED ∧
    (construct a t0).state = LoaderState.FINISHED ∧
    (construct a t0).sinkEvents = [SinkResult.failure] ∧
    (construct a t0).cacheReads = 0 ∧
    (construct a t0).netFetches = 0 ∧
    (construct a t0).cacheWrites = 0 ∧
    ∀ evs, run (construct a t0) evs = construct a t0 := by
  have hc : construct a t0 = finishReport (initLoader a) SinkResult.failure := by
    unfold construct startLoading
    simp [initLoader, hp, hu]
  refine ⟨rfl, ?_, ?_, ?_, ?_, ?_, fun evs => ?_⟩
  · rw [hc]; rfl
  · rw [hc]; simp [finishReport, initLoader]
  · rw [hc]; rfl
  · rw [hc]; rfl
  · rw [hc]; rfl
  · exact run_finished (by rw [hc]; rfl) evs

/-- C3: A cached payload that is read successfully, passes validation, and is
not expired moves the loader from `LOADING_FROM_FILE` to `FINISHED`; the sink
fires with success carrying the validated model, and no network fetch ever
occurs during the loader's lifetime. -/
theorem C3_valid_cache_hit (a : CtorArgs) (t0 t1 : Nat) (data : String)
    (hp : a.model_path ≠ "") (hd : data ≠ "")
    (hv : a.validate_model_cb data = true) :
    (construct a t0).state = LoaderState.LOADING_FROM_FILE ∧
    (OnFileLoaded (construct a t0) t1 data).state = LoaderState.FINISHED ∧
    (OnFileLoaded (construct a t0) t1 data).sinkEvents
      = [SinkResult.success data] ∧
    ∀ evs, (run (OnFileLoaded (construct a t0) t1 data) evs).netFetches = 0 ∧
      (run (OnFileLoaded (construct a t0) t1 data) evs).sinkEvents
        = [SinkResult.success data] := by
  have hc : construct a t0 = StartLoadFromFile (initLoader a) t0 := by
    unfold construct startLoading
    simp [initLoader, hp]
  have hstate : (construct a t0).state = LoaderState.LOADING_FROM_FILE := by
    rw [hc]; rfl
  have hvc : (construct a t0).validate_model_cb = a.validate_model_cb := by
    rw [hc]; rfl
  have hof : OnFileLoaded (construct a t0) t1 data
      = finishReport (construct a t0) (SinkResult.success data) := by
    unfold OnFileLoaded CreateAndValidateModel
    simp [hstate, hd, hvc, hv]
  have hsink : (construct a t0).sinkEvents = [] := by rw [hc]; rfl
  have hnet : (construct a t0).netFetches = 0 := by rw [hc]; rfl
  have hfin : (OnFileLoaded (construct a t0) t1 data).state
      = LoaderState.FINISHED := by
    rw [hof]; rfl
  refine ⟨hstate, hfin, ?_, fun evs => ?_⟩
  · rw [hof]; simp [finishReport, hsink]
  · rw [run_finished hfin evs, hof]
    constructor
    · simpa [finishReport] using hnet
    · simp [finishReport, hsink]

/-- C4: A cache miss or rejected cache payload, with a source URL configured,
moves the loader through `IDLE` and immediately starts exactly one network
attempt — with no activity signal needed and no backoff delay on this first
attempt — and the cache file is never re-read afterwards. -/
theorem C4_cache_miss_goes_straight_to_network (a : CtorArgs) (t0 t1 : Nat)
    (data : String) (hp : a.model_path ≠ "") (hu : a.model_url_valid = true)
    (hf : data = "" ∨ a.validate_model_cb data = false) :
    OnFileLoaded (construct a t0) t1 data
      = StartLoadFromURL { construct a t0 with state := LoaderState.IDLE } t1 ∧
    (OnFileLoaded (construct a t0) t1 data).state
      = LoaderState.LOADING_FROM_URL ∧
    (OnFileLoaded (construct a t0) t1 data).netFetches = 1 ∧
    (OnFileLoaded (construct a t0) t1 data).cacheReads = 1 ∧
    ∀ evs, (run (OnFileLoaded (construct a t0) t1 data) evs).cacheReads = 1 := by
  have hc : construct a t0 = StartLoadFromFile (initLoader a) t0 := by
    unfold construct startLoading
    simp [initLoader, hp]
  have hstate : (construct a t0).state = LoaderState.LOADING_FROM_FILE := by
    rw [hc]; rfl
  have hvc : (construct a t0).validate_model_cb = a.validate_model_cb := by
    rw [hc]; rfl
  have hmu : (construct a t0).model_url_valid = a.model_url_valid := by
    rw [hc]; rfl
  have hof : OnFileLoaded (construct a t0) t1 data
      = StartLoadFromURL { construct a t0 with state := LoaderState.IDLE }
          t1 := by
    unfold OnFileLoaded CreateAndValidateModel
    rcases hf with hf | hf
    · simp [hstate, hf, hmu, hu]
    · by_cases hd : data = ""
      · simp [hstate, hd, hmu, hu]
      · simp [hstate, hd, hvc, hf, hmu, hu]
  have hreads : (construct a t0).cacheReads = 1 := by
    rw [hc]
    simp [StartLoadFromFile, initLoader]
  have hr1 : (OnFileLoaded (construct a t0) t1 data).cacheReads = 1 := by
    rw [hof]
    simpa [StartLoadFromURL] using hreads
  refine ⟨hof, by rw [hof]; rfl, ?_, hr1, fun evs => ?_⟩
  · rw [hof]
    have : (construct a t0).netFetches = 0 := by rw [hc]; rfl
    simp [StartLoadFromURL, this]
  · rw [run_cacheReads, hr1]

/-- C5: `NotifyOfRankerActivity` starts a network load exactly when the loader
is in `IDLE`, a source URL is configured, the current time is at or after
`next_earliest_download_time_`, and the attempt cap has not been reached; any
number of calls before the backoff deadline trigger nothing, one call after it
(with attempts remaining) triggers exactly one more attempt, and in every
other state the call is a no-op. -/
theorem C5_notify_characterisation (l : Loader) (now : Nat) :
    (l.state = LoaderState.IDLE →
      ((l.model_url_valid = true ∧ l.next_earliest_download_time ≤ now ∧
          l.attempts < l.attemptCap) →
        NotifyOfRankerActivity l now = StartLoadFromURL l now ∧
        (NotifyOfRankerActivity l now).state = LoaderState.LOADING_FROM_URL ∧
        (NotifyOfRankerActivity l now).netFetches = l.netFetches + 1) ∧
      (¬(l.model_url_valid = true ∧ l.next_earliest_download_time ≤ now ∧
          l.attempts < l.attemptCap) →
        NotifyOfRankerActivity l now = l)) ∧
    (l.state ≠ LoaderState.IDLE → NotifyOfRankerActivity l now = l) ∧
    (∀ ts : List Nat, (∀ t ∈ ts, t < l.next_earliest_download_time) →
      run l (ts.map Event.notify) = l) ∧
    (∀ ts : List Nat, l.state = LoaderState.IDLE →
      (∀ t ∈ ts, t < l.next_earliest_download_time) →
      l.model_url_valid = true → l.next_earliest_download_time ≤ now →
      l.attempts < l.attemptCap →
      (run l (ts.map Event.notify ++ [Event.notify now])).netFetches
        = l.netFetches + 1 ∧
      (run l (ts.map Event.notify ++ [Event.notify now])).state
        = LoaderState.LOADING_FROM_URL) := by
  have hyes : l.state = LoaderState.IDLE →
      (l.model_url_valid = true ∧ l.next_earliest_download_time ≤ now ∧
        l.attempts < l.attemptCap) →
      NotifyOfRankerActivity l now = StartLoadFromURL l now := by
    intro hidle hg
    unfold NotifyOfRankerActivity
    rw [if_pos hidle, if_pos hg]
  refine ⟨fun hidle => ⟨fun hg => ?_, fun hng => ?_⟩, fun hnidle => ?_,
    fun ts hts => run_notify_before hts,
    fun ts hidle hts hu hle hcap => ?_⟩
  · exact ⟨hyes hidle hg, by rw [hyes hidle hg]; rfl,
      by rw [hyes hidle hg]; rfl⟩
  · unfold NotifyOfRankerActivity
    rw [if_pos hidle, if_neg hng]
  · unfold NotifyOfRankerActivity
    rw [if_neg hnidle]
  · have hr : run l (ts.map Event.notify ++ [Event.notify now])
        = StartLoadFromURL l now := by
      rw [run_append, run_notify_before hts]
      show NotifyOfRankerActivity l now = StartLoadFromURL l now
      exact hyes hidle ⟨hu, hle, hcap⟩
    rw [hr]
    exact ⟨rfl, rfl⟩

/-- C6: Every failed network attempt returns the loader to `IDLE` (while
attempts remain), advances the backoff clock to
`now + delay(attemptNumber)` and consumes one attempt; once the hard attempt
cap is reached the loader transitions to `FINISHED` with a terminal failure
reported to the sink, after which no event — in particular no activity signal
— ever changes the loader again.  The growth of `delay` with the attempt
number is a policy parameter of the construction (spec §4.2/§9). -/
theorem C6_failed_attempt_backoff_and_cap (l : Loader) (now : Nat)
    (success : Bool) (data : String)
    (hst : l.state = LoaderState.LOADING_FROM_URL)
    (hf : success = false ∨ l.validate_model_cb data = false) :
    (OnURLFetched l now success data).attempts = l.attempts + 1 ∧
    (l.attempts + 1 < l.attemptCap →
      (OnURLFetched l now success data).state = LoaderState.IDLE ∧
      (OnURLFetched l now success data).next_earliest_download_time
        = now + l.delay (l.attempts + 1) ∧
      (OnURLFetched l now success data).sinkEvents = l.sinkEvents ∧
      (OnURLFetched l now success data).netFetches = l.netFetches) ∧
    (l.attemptCap ≤ l.attempts + 1 →
      (OnURLFetched l now success data).state = LoaderState.FINISHED ∧
      (OnURLFetched l now success data).sinkEvents
        = l.sinkEvents ++ [SinkResult.failure] ∧
      ∀ evs, run (OnURLFetched l now success data) evs
        = OnURLFetched l now success data) := by
  have hnone : (if success then CreateAndValidateModel l data else none)
      = (none : Option String) := by
    rcases hf with hf | hf
    · simp [hf]
    · simp [CreateAndValidateModel, hf]
  have hof : OnURLFetched l now success data =
      (if l.attemptCap ≤ l.attempts + 1 then
          finishReport { l with attempts := l.attempts + 1 } SinkResult.failure
        else
          { l with attempts := l.attempts + 1,
                   state := LoaderState.IDLE,
                   next_earliest_download_time
                     := now + l.delay (l.attempts + 1) }) := by
    unfold OnURLFetched
    rw [hnone]
    simp [hst]
  refine ⟨?_, fun hlt => ?_, fun hge => ?_⟩
  · rw [hof]
    split
    · rfl
    · rfl
  · rw [hof, if_neg (by omega)]
    exact ⟨rfl, rfl, rfl, rfl⟩
  · rw [hof, if_pos hge]
    exact ⟨rfl, rfl, fun evs => run_finished rfl evs⟩

/-- C7: A network download that succeeds and whose payload passes validation
moves the loader from `LOADING_FROM_URL` to `FINISHED`, the downloaded bytes
are persisted (best effort) to the cache location when one is configured, and
the completion sink fires with success carrying the model. -/
theorem C7_download_success_persists_and_reports (l : Loader) (now : Nat)
    (data : String) (hst : l.state = LoaderState.LOADING_FROM_URL)
    (hv : l.validate_model_cb data = true) :
    (OnURLFetched l now true data).state = LoaderState.FINISHED ∧
    (OnURLFetched l now true data).sinkEvents
      = l.sinkEvents ++ [SinkResult.success data] ∧
    (l.model_path ≠ "" →
      (OnURLFetched l now true data).cacheWrites = l.cacheWrites + 1) ∧
    (l.model_path = "" →
      (OnURLFetched l now true data).cacheWrites = l.cacheWrites) ∧
    ∀ evs, run (OnURLFetched l now true data) evs
      = OnURLFetched l now true data := by
  have hof : OnURLFetched l now true data
      = finishReport (persistToCache l) (SinkResult.success data) := by
    unfold OnURLFetched CreateAndValidateModel
    simp [hst, hv]
  have hfin : (OnURLFetched l now true data).state = LoaderState.FINISHED := by
    rw [hof]; rfl
  refine ⟨hfin, ?_, fun hpath => ?_, fun hpath => ?_,
    fun evs => run_finished hfin evs⟩
  · rw [hof]
    simp [finishReport, persistToCache]
    split <;> rfl
  · rw [hof]
    simp [finishReport, persistToCache, hpath]
  · rw [hof]
    simp [finishReport, persistToCache, hpath]

/-- C9: If the loader is destroyed while background work is still outstanding,
background results delivered afterwards have no observable effect — the sink
log never changes after destruction — and if destruction happens before the
state reaches `FINISHED` the sink has not been invoked at all. -/
theorem C9_no_post_destruction_callback (a : CtorArgs) (t0 : Nat)
    (p q : List SysEvent) :
    (sysRun { loader := construct a t0, alive := true }
        (p ++ [SysEvent.destroy] ++ q)).loader.sinkEvents
      = (sysRun { loader := construct a t0, alive := true }
          (p ++ [SysEvent.destroy])).loader.sinkEvents ∧
    ((sysRun { loader := construct a t0, alive := true }
        (p ++ [SysEvent.destroy])).loader.state ≠ LoaderState.FINISHED →
      (sysRun { loader := construct a t0, alive := true }
          (p ++ [SysEvent.destroy])).loader.sinkEvents = []) := by
  constructor
  · rw [sysRun_append _ (p ++ [SysEvent.destroy]) q,
      sysRun_dead (sysRun_destroy_dead _ p) q]
  · intro hne
    exact sink_empty_of_not_finished (sys_inv (inv_construct a t0) _) hne

/-- C10: Every configuration input of the loader — the validator callback, the
completion callback, the cache path, the source URL, the metrics label prefix,
and the background task runner — is immutable after construction: no event
handler changes any of these fields, over single steps and whole traces. -/
theorem C10_const_members_never_change (l : Loader) (e : Event)
    (evs : List Event) :
    (step l e).validate_model_cb = l.validate_model_cb ∧
    (step l e).on_model_available_cb = l.on_model_available_cb ∧
    (step l e).background_task_runner = l.background_task_runner ∧
    (step l e).model_path = l.model_path ∧
    (step l e).model_url_valid = l.model_url_valid ∧
    (step l e).uma_metric_label = l.uma_metric_label ∧
    config (run l evs) = config l := by
  have h := step_config l e
  simp only [config, Prod.mk.injEq] at h
  exact ⟨h.1, h.2.1, h.2.2.1, h.2.2.2.1, h.2.2.2.2.1, h.2.2.2.2.2,
    run_config l evs⟩

/-! ### Concrete instances used by the witnesses -/

/-- Construction arguments with neither a cache location nor a valid URL. -/
def argsNone : CtorArgs :=
  { validate_model_cb := fun s => s == "ok",
    on_model_available_cb := "sink",
    url_loader_factory := "factory",
    background_task_runner := "runner",
    model_path := "",
    model_url_valid := false,
    uma_metric_label := "Translate.Ranker",
    attemptCap := 2,
    delay := fun n => 10 * n }

/-- Construction arguments with both a cache location and a valid URL. -/
def argsBoth : CtorArgs :=
  { argsNone with model_path := "model.pb", model_url_valid := true }

/-- A loader sitting in `IDLE` with a backoff deadline and one attempt used. -/
def idleLoader : Loader :=
  { initLoader argsBoth with
      state := LoaderState.IDLE,
      attempts := 1,
      next_earliest_download_time := 50 }

/-- A loader in `LOADING_FROM_URL` with no failed attempts yet. -/
def urlLoader0 : Loader :=
  { initLoader argsBoth with state := LoaderState.LOADING_FROM_URL }

/-- A loader in `LOADING_FROM_URL` with one failed attempt recorded. -/
def urlLoader1 : Loader :=
  { initLoader argsBoth with
      state := LoaderState.LOADING_FROM_URL,
      attempts := 1 }

theorem C1_sink_once_and_finished_terminal_witness :
    (run (construct argsNone 0) []).sinkEvents ≠ [] ∧
    (run (construct argsNone 0) []).state = LoaderState.FINISHED ∧
    step (run (construct argsNone 0) []) (Event.notify 5)
      = run (construct argsNone 0) [] := by
  have h := C1_sink_once_and_finished_terminal argsNone 0 []
  have hne : (run (construct argsNone 0) []).sinkEvents ≠ [] := by decide
  exact ⟨hne, h.2.1 hne, h.2.2 (Event.notify 5) (h.2.1 hne)⟩

theorem C2_no_sources_finishes_immediately_witness :
    (construct argsNone 0).state = LoaderState.FINISHED ∧
    (construct argsNone 0).sinkEvents = [SinkResult.failure] ∧
    (construct argsNone 0).cacheReads = 0 ∧
    (construct argsNone 0).netFetches = 0 ∧
    run (construct argsNone 0) [Event.notify 3] = construct argsNone 0 := by
  have h := C2_no_sources_finishes_immediately argsNone 0 rfl rfl
  exact ⟨h.2.1, h.2.2.1, h.2.2.2.1, h.2.2.2.2.1, h.2.2.2.2.2.2 [Event.notify 3]⟩

theorem C3_valid_cache_hit_witness :
    (construct argsBoth 0).state = LoaderState.LOADING_FROM_FILE ∧
    (OnFileLoaded (construct argsBoth 0) 1 "ok").sinkEvents
      = [SinkResult.success "ok"] ∧
    (run (OnFileLoaded (construct argsBoth 0) 1 "ok")
        [Event.notify 99]).netFetches = 0 := by
  have h := C3_valid_cache_hit argsBoth 0 1 "ok" (by decide) (by decide)
    (by decide)
  exact ⟨h.1, h.2.2.1, (h.2.2.2 [Event.notify 99]).1⟩

theorem C4_cache_miss_goes_straight_to_network_witness :
    (OnFileLoaded (construct argsBoth 0) 1 "bad").state
      = LoaderState.LOADING_FROM_URL ∧
    (OnFileLoaded (construct argsBoth 0) 1 "bad").netFetches = 1 ∧
    (run (OnFileLoaded (construct argsBoth 0) 1 "bad")
        [Event.notify 7]).cacheReads = 1 := by
  have h := C4_cache_miss_goes_straight_to_network argsBoth 0 1 "bad"
    (by decide) (by decide) (Or.inr (by decide))
  exact ⟨h.2.1, h.2.2.1, h.2.2.2.2 [Event.notify 7]⟩

theorem C5_notify_characterisation_witness :
    NotifyOfRankerActivity idleLoader 60 = StartLoadFromURL idleLoader 60 ∧
    run idleLoader ([10, 20, 30].map Event.notify) = idleLoader ∧
    (run idleLoader
        ([10, 20, 30].map Event.notify ++ [Event.notify 60])).netFetches
      = idleLoader.netFetches + 1 := by
  have h := C5_notify_characterisation idleLoader 60
  exact ⟨((h.1 (by decide)).1 ⟨by decide, by decide, by decide⟩).1,
    h.2.2.1 [10, 20, 30] (by decide),
    (h.2.2.2 [10, 20, 30] (by decide) (by decide) (by decide) (by decide)
      (by decide)).1⟩

theorem C6_failed_attempt_backoff_and_cap_witness :
    (OnURLFetched urlLoader0 100 false "x").state = LoaderState.IDLE ∧
    (OnURLFetched urlLoader0 100 false "x").next_earliest_download_time
      = 100 + urlLoader0.delay 1 ∧
    (OnURLFetched urlLoader1 100 true "bad").state = LoaderState.FINISHED ∧
    (OnURLFetched urlLoader1 100 true "bad").sinkEvents
      = urlLoader1.sinkEvents ++ [SinkResult.failure] := by
  have h0 := C6_failed_attempt_backoff_and_cap urlLoader0 100 false "x"
    (by decide) (Or.inl rfl)
  have h1 := C6_failed_attempt_backoff_and_cap urlLoader1 100 true "bad"
    (by decide) (Or.inr (by decide))
  exact ⟨(h0.2.1 (by decide)).1, (h0.2.1 (by decide)).2.1,
    (h1.2.2 (by decide)).1, (h1.2.2 (by decide)).2.1⟩

theorem C7_download_success_persists_and_reports_witness :
    (OnURLFetched urlLoader0 5 true "ok").state = LoaderState.FINISHED ∧
    (OnURLFetched urlLoader0 5 true "ok").sinkEvents
      = urlLoader0.sinkEvents ++ [SinkResult.success "ok"] ∧
    (OnURLFetched urlLoader0 5 true "ok").cacheWrites
      = urlLoader0.cacheWrites + 1 := by
  have h := C7_download_success_persists_and_reports urlLoader0 5 "ok"
    (by decide) (by decide)
  exact ⟨h.1, h.2.1, h.2.2.1 (by decide)⟩

theorem C9_no_post_destruction_callback_witness :
    (sysRun { loader := construct argsBoth 0, alive := true }
        ([] ++ [SysEvent.destroy]
          ++ [SysEvent.deliver (Event.fileLoaded 1 "ok")])).loader.sinkEvents
      = (sysRun { loader := construct argsBoth 0, alive := true }
          ([] ++ [SysEvent.destroy])).loader.sinkEvents ∧
    (sysRun { loader := construct argsBoth 0, alive := true }
        ([] ++ [SysEvent.destroy])).loader.sinkEvents = [] := by
  have h := C9_no_post_destruction_callback argsBoth 0 []
    [SysEvent.deliver (Event.fileLoaded 1 "ok")]
  exact ⟨h.1, h.2 (by decide)⟩

end AssistRanker
